import Mathlib

/-!
Verification of the Prod_ThinServer boot-credential core.

Shallow embedding of the client lifecycle / boot-token code:
  - `models.py`    : `Client` fields, `encrypt_password`, `decrypt_password`,
                     `generate_boot_token`, `validate_boot_token`, `consume_boot_token`
  - `api/boot.py`  : `boot_rate_limit`, `boot_config` (statistics/token update),
                     `get_boot_credentials`
  - `api/heartbeat.py` : `update_client_statuses` (status sweep)
  - `utils.py`     : `validate_mac`, `log_audit` (call signature)

Timestamps are modelled as integers (seconds); `datetime` comparisons in the
source become integer comparisons.  Database sessions are modelled by explicit
state passing: a handler takes the persisted state and returns the new
persisted state, a failed commit leaves the old state (the source rolls the
transaction back).  Python `None` becomes `Option.none`; a raised exception
that a handler catches becomes the corresponding error branch.
-/

/-- Persisted `Client` row (models.py).  Only the columns read or written by
the verified operations are carried; `status` is the raw string column
(`offline` / `booting` / `online`). -/
structure Client where
  mac : String
  status : String
  boot_count : Option Nat
  last_boot : Option Int
  last_seen : Option Int
  last_ip : Option String
  boot_token : Option String
  boot_token_expires : Option Int
  rdp_server : Option String
  rdp_domain : Option String
  rdp_username : Option String
  rdp_password_encrypted : Option String
  is_active : Bool
  deriving Repr, DecidableEq

/-- models.py `encrypt_password`: empty/absent plaintext gives `None`;
a cipher failure (the `except` branch) falls back to returning the
plaintext itself.  The Fernet cipher is passed in as `enc` (returning
`none` when `cipher.encrypt` raises). -/
def encrypt_password (enc : String → Option String) (plain_text : String) :
    Option String :=
  if plain_text = "" then none
  else
    match enc plain_text with
    | some ciphertext => some ciphertext
    | none => some plain_text

/-- models.py `decrypt_password`: empty/absent stored value gives `None`; if
decryption fails the stored value is assumed to be legacy plaintext and is
returned as-is.  The Fernet cipher is passed in as `dec` (returning `none`
when `cipher.decrypt` raises). -/
def decrypt_password (dec : String → Option String) (encrypted_text : String) :
    Option String :=
  if encrypted_text = "" then none
  else
    match dec encrypted_text with
    | some plain => some plain
    | none => some encrypted_text

/-- models.py `rdp_password` setter: a truthy plaintext is stored through
`encrypt_password`, a falsy one clears the column. -/
def Client.set_rdp_password (enc : String → Option String) (c : Client)
    (plain_password : String) : Client :=
  if plain_password = "" then { c with rdp_password_encrypted := none }
  else { c with rdp_password_encrypted := encrypt_password enc plain_password }

/-- Token lifetime: `timedelta(minutes=10)` in `generate_boot_token`. -/
def tokenTTL : Int := 600

/-- models.py `Client.generate_boot_token`: stores a fresh random token (the
random draw `secrets.token_urlsafe(32)` is passed in as `tok`) and an expiry
of now + 10 minutes, overwriting whatever was stored before. -/
def Client.generate_boot_token (c : Client) (tok : String) (now : Int) :
    Client × String :=
  ({ c with boot_token := some tok, boot_token_expires := some (now + tokenTTL) },
   tok)

/-- models.py `Client.validate_boot_token`: false on a falsy stored token or
argument, on mismatch, on a missing expiry, or when now is strictly past the
expiry; true otherwise. -/
def Client.validate_boot_token (c : Client) (token : String) (now : Int) : Bool :=
  match c.boot_token with
  | none => false
  | some bt =>
    if bt = "" || token = "" then false
    else if bt ≠ token then false
    else
      match c.boot_token_expires with
      | none => false
      | some expires => decide (now ≤ expires)

/-- models.py `Client.consume_boot_token`: clears token and expiry. -/
def Client.consume_boot_token (c : Client) : Client :=
  { c with boot_token := none, boot_token_expires := none }

/-- Parameter names accepted by utils.py `log_audit(action, details='')`. -/
def logAuditParams : List String := ["action", "details"]

/-- Keyword arguments passed to `log_audit` by both audit calls in
api/boot.py `get_boot_credentials`. -/
def credentialsAuditKwargs : List String := ["action", "details", "admin_username"]

/-- Python call semantics: a keyword call succeeds only when every keyword
names a parameter of the callee; otherwise the call raises `TypeError`
before the callee body runs. -/
def kwargsAccepted (call params : List String) : Bool :=
  call.all (fun k => params.contains k)

/-- Body of a `get_boot_credentials` JSON response. -/
inductive CredBody where
  | invalidToken
  | tokenExpired
  | validationFailed
  | serverError
  | credentials (server domain username password : String)
  deriving Repr, DecidableEq

/-- HTTP status plus JSON body of a credential response. -/
structure CredResult where
  status : Nat
  body : CredBody
  deriving Repr, DecidableEq

/-- Handling of `get_boot_credentials` once the token lookup matched client
`c` (api/boot.py lines 236-279).  On a failed validation the handler calls
`log_audit(action=..., details=..., admin_username='SYSTEM')`; when that call
is not accepted by `log_audit`'s signature the raised `TypeError` is caught
by the inner `except` and a 500 is returned before `consume_boot_token`
runs.  On success the credentials are built (decryption falling back to an
empty password) and the token is consumed. -/
def credRequestOnClient (dec : String → Option String) (serverDefault : String)
    (c : Client) (token : String) (now : Int) : CredResult × Client :=
  if c.validate_boot_token token now then
    let pwd :=
      match c.rdp_password_encrypted with
      | some e => (decrypt_password dec e).getD ""
      | none => ""
    (⟨200, .credentials (c.rdp_server.getD serverDefault) (c.rdp_domain.getD "")
        (c.rdp_username.getD "") pwd⟩,
     c.consume_boot_token)
  else
    if kwargsAccepted credentialsAuditKwargs logAuditParams then
      (⟨403, .tokenExpired⟩, c.consume_boot_token)
    else
      (⟨500, .validationFailed⟩, c)

/-- Walks the client table in order looking for the first row whose
`boot_token` column equals the requested token
(`Client.query.filter_by(boot_token=token).first()`); returns `none` when no
row matches, otherwise the response together with the updated table. -/
def credLookup (dec : String → Option String) (serverDefault : String)
    (token : String) (now : Int) :
    List Client → Option (CredResult × List Client)
  | [] => none
  | c :: rest =>
    if c.boot_token = some token then
      let (res, c') := credRequestOnClient dec serverDefault c token now
      some (res, c' :: rest)
    else
      match credLookup dec serverDefault token now rest with
      | none => none
      | some (res, rest') => some (res, c :: rest')

/-- api/boot.py `get_boot_credentials`: when no client holds the token the
handler calls `log_audit` with an `admin_username` keyword; when that call is
not accepted by `log_audit`'s signature the `TypeError` propagates to the
outer `except` and a 500 is returned instead of the 404. -/
def get_boot_credentials (dec : String → Option String) (serverDefault : String)
    (clients : List Client) (token : String) (now : Int) :
    CredResult × List Client :=
  match credLookup dec serverDefault token now clients with
  | some res => res
  | none =>
    if kwargsAccepted credentialsAuditKwargs logAuditParams then
      (⟨404, .invalidToken⟩, clients)
    else
      (⟨500, .serverError⟩, clients)

/-- Boot-statistics/token update of api/boot.py `boot_config` (lines
110-159): increments `boot_count`, stamps `last_boot` / `last_seen` /
`last_ip`, sets status `booting` and stores a fresh token. -/
def bootConfigUpdate (c : Client) (now : Int) (ip tok : String) : Client :=
  let c1 := { c with
    boot_count := some (c.boot_count.getD 0 + 1),
    last_boot := some now,
    last_ip := some ip,
    last_seen := some now,
    status := "booting" }
  (c1.generate_boot_token tok now).1

/-- Persisted effect of one handled `boot_config` request on an existing
client: when the commit succeeds the updated row is persisted and the token
is embedded in the script; when it fails the transaction is rolled back
(the row keeps its old state) and the script is generated without a token
(`boot_token = None` in the `except` branch). -/
def bootConfigCore (c : Client) (commitOk : Bool) (now : Int) (ip tok : String) :
    Client × Option String :=
  if commitOk then (bootConfigUpdate c now ip tok, some tok)
  else (c, none)

/-- Persisted `boot_count` evolution over a sequence of handled boot
requests, each request given as (commit succeeded, time, caller ip, drawn
token). -/
def processBoots (c : Client) : List (Bool × Int × String × String) → Client
  | [] => c
  | (ok, now, ip, tok) :: rest => processBoots (bootConfigCore c ok now ip tok).1 rest

/-- Rate-limiter window: `_BOOT_RATE_WINDOW = 60` seconds. -/
def rateLimitWindow : Int := 60

/-- Rate-limiter threshold: `_BOOT_RATE_LIMIT = 100` requests per window. -/
def rateLimitMax : Nat := 100

/-- One pass of api/boot.py `boot_rate_limit` for a single caller IP's cache
entry: prune timestamps at or before now - 60, reject when 100 remain,
otherwise record the request.  Returns (admitted, new cache entry). -/
def rateLimitStep (cache : List Int) (now : Int) : Bool × List Int :=
  let kept := cache.filter (fun ts => now - rateLimitWindow < ts)
  if rateLimitMax ≤ kept.length then (false, kept)
  else (true, kept ++ [now])

/-- Runs the rate limiter over a sequence of request times from one IP,
returning the admission flags in order and the final cache entry. -/
def runRateLimiter (cache : List Int) : List Int → List Bool × List Int
  | [] => ([], cache)
  | now :: rest =>
    let (ok, cache') := rateLimitStep cache now
    let (oks, cacheF) := runRateLimiter cache' rest
    (ok :: oks, cacheF)

/-- The decorated `boot_config` endpoint for one client: the rate limiter
runs first and a rejected request returns 429 without reaching the handler
body, so the client row is untouched; an admitted request runs the
statistics/token update (200 assuming script generation succeeds). -/
def bootConfigHandler (cache : List Int) (c : Client) (commitOk : Bool)
    (now : Int) (ip tok : String) : Nat × Client × List Int :=
  match rateLimitStep cache now with
  | (false, cache') => (429, c, cache')
  | (true, cache') =>
    let (c', _) := bootConfigCore c commitOk now ip tok
    (200, c', cache')

/-- Booting-timeout of the sweep: `timedelta(minutes=10)`. -/
def sweepBootingTimeout : Int := 600

/-- Online-timeout of the sweep: `timedelta(minutes=5)`. -/
def sweepOnlineTimeout : Int := 300

/-- Per-client body of api/heartbeat.py `update_client_statuses`: a client
with no `last_seen` is set offline (when not already); a `booting` client
whose `last_seen` is strictly older than 10 minutes, or an `online` client
whose `last_seen` is strictly older than 5 minutes, is set offline;
otherwise the row is untouched. -/
def sweepClient (now : Int) (c : Client) : Client :=
  match c.last_seen with
  | none =>
    if c.status ≠ "offline" then { c with status := "offline" } else c
  | some seen =>
    if c.status = "booting" ∧ seen < now - sweepBootingTimeout then
      { c with status := "offline" }
    else if c.status = "online" ∧ seen < now - sweepOnlineTimeout then
      { c with status := "offline" }
    else c

/-- api/heartbeat.py `update_client_statuses`: the sweep pass over the
client table; only rows with `is_active=True` are visited
(`Client.query.filter_by(is_active=True)`). -/
def update_client_statuses (now : Int) (clients : List Client) : List Client :=
  clients.map (fun c => if c.is_active then sweepClient now c else c)

/-- Separator characters removed by `re.sub(r'[:-]', '', mac)`. -/
def isSepChar (ch : Char) : Bool := ch = ':' || ch = '-'

/-- The character class `[0-9A-F]` of the validation regex. -/
def hexDigitsUpper : List Char :=
  ['0', '1', '2', '3', '4', '5', '6', '7', '8', '9', 'A', 'B', 'C', 'D', 'E', 'F']

/-- Membership in the `[0-9A-F]` class. -/
def isUpperHexDigit (ch : Char) : Bool := decide (ch ∈ hexDigitsUpper)

/-- Python `str.strip()`: remove leading and trailing whitespace. -/
def stripChars (l : List Char) : List Char :=
  ((l.dropWhile Char.isWhitespace).reverse.dropWhile Char.isWhitespace).reverse

/-- The cleaned digit core of utils.py `validate_mac`: strip whitespace,
drop all `:` and `-` separators, uppercase
(`re.sub(r'[:-]', '', mac).upper()` on the stripped input). -/
def macClean (l : List Char) : List Char :=
  ((stripChars l).filter (fun ch => !(isSepChar ch))).map Char.toUpper

/-- The match `re.match(r'^[0-9A-F]{12}$', clean)`: exactly 12 characters of
the `[0-9A-F]` class.  (Python's `$` would additionally tolerate a single
trailing newline in `clean`; after `strip()` that arises only from inputs
holding an interior newline followed by separators, which no claim
exercises, so the plain exact-match reading is modelled.) -/
def isHex12 (l : List Char) : Bool :=
  l.length = 12 && l.all isUpperHexDigit

/-- The null MAC entry of `INVALID_MACS`. -/
def nullMac : List Char := String.toList "000000000000"

/-- The broadcast MAC entry of `INVALID_MACS`. -/
def broadcastMac : List Char := String.toList "FFFFFFFFFFFF"

/-- Canonical formatting `':'.join(clean[i:i+2] for i in range(0, 12, 2))`,
written out for the length-12 lists on which it is invoked (the call site
is guarded by the 12-character match). -/
def formatMac (l : List Char) : List Char :=
  match l with
  | [a, b, c, d, e, f, g, h, i, j, k, m] =>
    [a, b, ':', c, d, ':', e, f, ':', g, h, ':', i, j, ':', k, m]
  | _ => l

/-- utils.py `validate_mac` over character lists: falsy input is rejected,
the cleaned core must be 12 hex digits, the all-zero and broadcast cores are
rejected, and the canonical colon-grouped uppercase form is returned. -/
def validateMacL (l : List Char) : Option (List Char) :=
  if l = [] then none
  else if ¬ isHex12 (macClean l) then none
  else if macClean l = nullMac ∨ macClean l = broadcastMac then none
  else some (formatMac (macClean l))

/-- utils.py `validate_mac` on strings. -/
def validate_mac (s : String) : Option String :=
  (validateMacL s.toList).map (fun l => String.mk l)

/-- A concrete registered client used as the base of the test fixtures. -/
def baseClient : Client :=
  { mac := "AA:BB:CC:DD:EE:01"
    status := "offline"
    boot_count := some 0
    last_boot := none
    last_seen := none
    last_ip := none
    boot_token := none
    boot_token_expires := none
    rdp_server := some "rds.example.org"
    rdp_domain := some "CORP"
    rdp_username := some "user1"
    rdp_password_encrypted := none
    is_active := true }

/-- Client holding a live (unexpired) boot token. -/
def liveTokenClient : Client :=
  { baseClient with status := "online", boot_token := some "tokenA",
                    boot_token_expires := some 1000 }

/-- Client holding a token whose expiry (100) has already passed. -/
def expiredTokenClient : Client :=
  { baseClient with boot_token := some "tokenB", boot_token_expires := some 100 }

/-- Last report of a client in the words of the spec sweep rule: `last_seen`,
or `last_boot` if the client never reported a heartbeat. -/
def specLastReport (c : Client) : Option Int :=
  match c.last_seen with
  | some t => some t
  | none => c.last_boot

/-- Booting client that never sent a heartbeat (no `last_seen`) and whose
boot happened 9 minutes before time 0. -/
def bootedNineMinAgoClient : Client :=
  { baseClient with status := "booting", last_seen := none,
                    last_boot := some (-540) }

/-- Online client whose last heartbeat is stale (1000 seconds before time 0). -/
def staleOnlineClient : Client :=
  { baseClient with status := "online", last_seen := some (-1000) }

/-- Booting client whose last heartbeat is 700 seconds before time 0. -/
def staleBootingClient : Client :=
  { baseClient with status := "booting", last_seen := some (-700) }

/-! ## Claim theorems -/

/-- C5: counterexample.  The claim says a failing encryption step rejects
the write and the secret is never stored as plaintext.  In the code,
`encrypt_password` catches the cipher failure and returns the plaintext
itself, which the `rdp_password` setter then persists: storing "hunter2"
through an always-failing cipher leaves the literal plaintext in the
encrypted-password column. -/
theorem rdp_password_encrypt_failure_stores_plaintext :
    (baseClient.set_rdp_password (fun _ => none) "hunter2").rdp_password_encrypted
      = some "hunter2" := rfl

/-- C5 (amended): a write of a non-empty secret is never rejected: when the
cipher succeeds the ciphertext is stored, and when the cipher fails the
plaintext itself is stored as a deliberate data-loss-prevention fallback. -/
theorem rdp_password_write_fallback (enc : String → Option String) (c : Client)
    (s : String) (hs : s ≠ "") :
    (enc s = none → (c.set_rdp_password enc s).rdp_password_encrypted = some s)
    ∧ (∀ ct, enc s = some ct →
        (c.set_rdp_password enc s).rdp_password_encrypted = some ct) := by
  constructor
  · intro h
    simp [Client.set_rdp_password, hs, encrypt_password, h]
  · intro ct h
    simp [Client.set_rdp_password, hs, encrypt_password, h]

/-- Witness for the amended C5 at a concrete input. -/
theorem rdp_password_write_fallback_witness :
    ("secret" : String) ≠ ""
    ∧ (baseClient.set_rdp_password (fun _ => none) "secret").rdp_password_encrypted
        = some "secret" :=
  ⟨by decide,
   (rdp_password_write_fallback (fun _ => none) baseClient "secret" (by decide)).1 rfl⟩

/-- C6: the vault round-trips every non-empty secret whose encryption
succeeds (decrypting the stored ciphertext returns the original plaintext),
and a non-empty stored value that the cipher cannot decrypt (legacy
plaintext, never produced by this vault) is returned unchanged; both
directions are total, no exception escapes. -/
theorem vault_roundtrip_and_legacy (enc dec : String → Option String)
    (s ct v : String) (hs : s ≠ "") (hct : ct ≠ "")
    (henc : enc s = some ct) (hrt : dec ct = some s)
    (hv : v ≠ "") (hleg : dec v = none) :
    decrypt_password dec ((encrypt_password enc s).getD "") = some s
    ∧ decrypt_password dec v = some v := by
  constructor
  · simp [encrypt_password, hs, henc, decrypt_password, hct, hrt]
  · simp [decrypt_password, hv, hleg]

/-- Witness for C6 with a concrete invertible cipher. -/
theorem vault_roundtrip_and_legacy_witness :
    decrypt_password (fun t => if t = "Epw" then some "pw" else none)
        ((encrypt_password (fun x => some ("E" ++ x)) "pw").getD "") = some "pw"
    ∧ decrypt_password (fun t => if t = "Epw" then some "pw" else none) "old"
        = some "old" :=
  vault_roundtrip_and_legacy (fun x => some ("E" ++ x))
    (fun t => if t = "Epw" then some "pw" else none)
    "pw" "Epw" "old" (by decide) (by decide) (by decide) (by decide)
    (by decide) (by decide)

/-- C4: counterexample.  The claim says that after N handled boot requests
the persisted `boot_count` equals N even when some statistics commits
failed.  In the code the increment lives inside the same transaction as the
token update and is rolled back on a failed commit: one handled request
whose commit fails (N = 1) leaves the persisted count at 0, not 1. -/
theorem boot_count_lost_on_failed_commit :
    (processBoots baseClient [(false, 0, "10.0.0.9", "tok1")]).boot_count = some 0
    ∧ (processBoots baseClient [(false, 0, "10.0.0.9", "tok1")]).boot_count
        ≠ some 1 := by
  decide

/-- C4 (amended): the persisted `boot_count` after a sequence of handled
boot requests equals its initial value plus the number of requests whose
statistics commit succeeded (an increment is rolled back with its failed
commit), and it never decreases. -/
theorem boot_count_counts_successful_commits (c : Client)
    (reqs : List (Bool × Int × String × String)) :
    (processBoots c reqs).boot_count.getD 0
      = c.boot_count.getD 0 + (reqs.filter (fun r => r.1)).length
    ∧ c.boot_count.getD 0 ≤ (processBoots c reqs).boot_count.getD 0 := by
  have key : ∀ (rs : List (Bool × Int × String × String)) (c0 : Client),
      (processBoots c0 rs).boot_count.getD 0
        = c0.boot_count.getD 0 + (rs.filter (fun r => r.1)).length := by
    intro rs
    induction rs with
    | nil => intro c0; simp [processBoots]
    | cons head rest ih =>
      intro c0
      obtain ⟨ok, now, ip, tok⟩ := head
      cases ok with
      | false =>
        simp only [processBoots, bootConfigCore, Bool.false_eq_true, if_false,
          List.filter_cons]
        simpa using ih c0
      | true =>
        have hstep : (bootConfigCore c0 true now ip tok).1.boot_count.getD 0
            = c0.boot_count.getD 0 + 1 := by
          simp [bootConfigCore, bootConfigUpdate, Client.generate_boot_token]
        simp only [processBoots, List.filter_cons]
        rw [ih]
        rw [hstep]
        simp
        omega
  refine ⟨key reqs c, ?_⟩
  rw [key reqs c]
  omega

/-- The `log_audit` call in `get_boot_credentials` passes the keyword
`admin_username`, which `log_audit(action, details='')` does not accept. -/
theorem log_audit_call_mismatch :
    kwargsAccepted credentialsAuditKwargs logAuditParams = false := by decide

/-- C1: code bug.  A first request with a live token returns 200 and
consumes the token, but the subsequent request with the same (now
unmatched) token returns 500, not the claimed 404: the handler's
`log_audit(..., admin_username='SYSTEM')` call raises `TypeError` (the
callee accepts no such keyword), which the outer `except` turns into a 500
before the intended `404` return is reached.  Client state is left
unchanged by the second request either way. -/
theorem credentials_second_request_returns_500 :
    (get_boot_credentials (fun _ => none) "rds.example.org" [liveTokenClient]
        "tokenA" 10).1.status = 200
    ∧ (get_boot_credentials (fun _ => none) "rds.example.org"
        (get_boot_credentials (fun _ => none) "rds.example.org" [liveTokenClient]
          "tokenA" 10).2 "tokenA" 10).1.status = 500
    ∧ (get_boot_credentials (fun _ => none) "rds.example.org"
        (get_boot_credentials (fun _ => none) "rds.example.org" [liveTokenClient]
          "tokenA" 10).2 "tokenA" 10).2
      = (get_boot_credentials (fun _ => none) "rds.example.org" [liveTokenClient]
          "tokenA" 10).2 := by
  decide

/-- C2: code bug.  A request with an expired token (expiry 100, now 200)
returns 500 ("Token validation failed"), not the claimed 403, and the token
is NOT consumed: the `log_audit(..., admin_username='SYSTEM')` call raises
`TypeError` before `consume_boot_token()` runs, so the stored token and
expiry survive and every subsequent request with the same token again
returns 500 rather than 404. -/
theorem credentials_expired_request_returns_500_unconsumed :
    (get_boot_credentials (fun _ => none) "rds.example.org" [expiredTokenClient]
        "tokenB" 200).1 = ⟨500, .validationFailed⟩
    ∧ (get_boot_credentials (fun _ => none) "rds.example.org" [expiredTokenClient]
        "tokenB" 200).2 = [expiredTokenClient]
    ∧ expiredTokenClient.boot_token = some "tokenB"
    ∧ (get_boot_credentials (fun _ => none) "rds.example.org" [expiredTokenClient]
        "tokenB" 300).1.status = 500 := by
  decide

/-- C3: issuing a second token for a client overwrites the first: the
client then stores exactly the new token value (at most one token at any
moment), and a credential request with the first token is rejected — it is
not answered with credentials (status 200) and leaves the stored state
untouched — regardless of the first token's own expiry. -/
theorem second_token_invalidates_first (c : Client) (t1 t2 : String)
    (now now' : Int) (dec : String → Option String) (srv : String)
    (hne : t1 ≠ t2) :
    (c.generate_boot_token t2 now).1.boot_token = some t2
    ∧ (∀ t, (c.generate_boot_token t2 now).1.boot_token = some t → t = t2)
    ∧ (get_boot_credentials dec srv [(c.generate_boot_token t2 now).1]
        t1 now').1.status ≠ 200
    ∧ (get_boot_credentials dec srv [(c.generate_boot_token t2 now).1]
        t1 now').2 = [(c.generate_boot_token t2 now).1] := by
  have hmm : ¬ ((c.generate_boot_token t2 now).1.boot_token = some t1) := by
    simp [Client.generate_boot_token]
    intro h
    exact hne h.symm
  refine ⟨rfl, ?_, ?_, ?_⟩
  · intro t ht
    simpa [Client.generate_boot_token] using ht.symm
  · simp [get_boot_credentials, credLookup, hmm, log_audit_call_mismatch]
  · simp [get_boot_credentials, credLookup, hmm, log_audit_call_mismatch]

/-- Witness for C3 at concrete tokens. -/
theorem second_token_invalidates_first_witness :
    ("oldTok" : String) ≠ "newTok"
    ∧ (baseClient.generate_boot_token "newTok" 0).1.boot_token = some "newTok"
    ∧ (get_boot_credentials (fun _ => none) "rds.example.org"
        [(baseClient.generate_boot_token "newTok" 0).1] "oldTok" 50).1.status
        ≠ 200 :=
  ⟨by decide,
   (second_token_invalidates_first baseClient "oldTok" "newTok" 0 50
      (fun _ => none) "rds.example.org" (by decide)).1,
   (second_token_invalidates_first baseClient "oldTok" "newTok" 0 50
      (fun _ => none) "rds.example.org" (by decide)).2.2.1⟩

/-- Every branch of the sweep body either leaves the row unchanged or
rewrites exactly the status field to "offline". -/
theorem sweepClient_cases (now : Int) (c : Client) :
    sweepClient now c = c ∨ sweepClient now c = { c with status := "offline" } := by
  rcases h : c.last_seen with _ | seen <;> simp only [sweepClient, h]
  · split
    · right; rfl
    · left; rfl
  · split
    · right; rfl
    · split
      · right; rfl
      · left; rfl

/-- The sweep body never touches `is_active`. -/
theorem sweepClient_active (now : Int) (c : Client) :
    (sweepClient now c).is_active = c.is_active := by
  rcases sweepClient_cases now c with h | h <;> simp [h]

/-- A row whose status is already "offline" is a fixed point of the sweep
body. -/
theorem sweepClient_offline (now : Int) (c : Client)
    (h : c.status = "offline") : sweepClient now c = c := by
  rcases hl : c.last_seen with _ | seen <;> simp [sweepClient, hl, h]

/-- Running the sweep body twice at the same instant equals running it
once. -/
theorem sweepClient_idem (now : Int) (c : Client) :
    sweepClient now (sweepClient now c) = sweepClient now c := by
  rcases sweepClient_cases now c with h | h
  · rw [h]; exact h
  · rw [h]; exact sweepClient_offline now _ rfl

/-- C10: the sweep writes only the value "offline" into the status field
(any changed row has status "offline", an unchanged row keeps its status);
a row already "offline" with a recorded `last_seen` is left untouched; and
`last_seen`, `last_boot`, `boot_count`, `boot_token`, `boot_token_expires`
and `last_ip` of every row are unchanged. -/
theorem sweep_frame_effect (now : Int) (cs : List Client) (i : Nat)
    (c c' : Client) (hc : cs[i]? = some c)
    (hc' : (update_client_statuses now cs)[i]? = some c') :
    (c'.status = "offline" ∨ c'.status = c.status)
    ∧ (c.status = "offline" → c.last_seen ≠ none → c' = c)
    ∧ c'.last_seen = c.last_seen
    ∧ c'.last_boot = c.last_boot
    ∧ c'.boot_count = c.boot_count
    ∧ c'.boot_token = c.boot_token
    ∧ c'.boot_token_expires = c.boot_token_expires
    ∧ c'.last_ip = c.last_ip := by
  have hmap : (update_client_statuses now cs)[i]?
      = (cs[i]?).map (fun x => if x.is_active then sweepClient now x else x) := by
    simp [update_client_statuses]
  rw [hc] at hmap
  rw [hmap] at hc'
  have hc'eq : c' = if c.is_active then sweepClient now c else c := by
    simpa using hc'.symm
  by_cases hact : c.is_active
  · rw [if_pos hact] at hc'eq
    rcases sweepClient_cases now c with h | h
    · subst hc'eq
      rw [h]
      exact ⟨Or.inr rfl, fun _ _ => rfl, rfl, rfl, rfl, rfl, rfl, rfl⟩
    · subst hc'eq
      rw [h]
      refine ⟨Or.inl rfl, ?_, rfl, rfl, rfl, rfl, rfl, rfl⟩
      intro hoff _
      cases c
      simp_all
  · rw [if_neg hact] at hc'eq
    subst hc'eq
    exact ⟨Or.inr rfl, fun _ _ => rfl, rfl, rfl, rfl, rfl, rfl, rfl⟩

/-- Witness for C10 on a one-row table holding a stale online client. -/
theorem sweep_frame_effect_witness :
    ([staleOnlineClient] : List Client)[0]? = some staleOnlineClient
    ∧ (update_client_statuses 0 [staleOnlineClient])[0]?
        = some { staleOnlineClient with status := "offline" }
    ∧ ({ staleOnlineClient with status := "offline" }.status = "offline"
        ∨ { staleOnlineClient with status := "offline" }.status
            = staleOnlineClient.status)
    ∧ { staleOnlineClient with status := "offline" }.last_seen
        = staleOnlineClient.last_seen :=
  ⟨by decide, by decide,
   (sweep_frame_effect 0 [staleOnlineClient] 0 staleOnlineClient
      { staleOnlineClient with status := "offline" } (by decide) (by decide)).1,
   (sweep_frame_effect 0 [staleOnlineClient] 0 staleOnlineClient
      { staleOnlineClient with status := "offline" } (by decide) (by decide)).2.2.1⟩

/-- C7: counterexample.  The claim lets the last report of a never-reporting
client fall back to `last_boot`: a booting client with no `last_seen` whose
boot was 9 minutes before the sweep (younger than the 10-minute timeout)
would have to stay `booting`.  The code never consults `last_boot`: it sets
every client without `last_seen` offline, so this client comes out
`offline`. -/
theorem sweep_ignores_last_boot_counterexample :
    specLastReport bootedNineMinAgoClient = some (-540)
    ∧ (0 : Int) - (-540) < sweepBootingTimeout
    ∧ bootedNineMinAgoClient.status = "booting"
    ∧ (sweepClient 0 bootedNineMinAgoClient).status = "offline" := by
  decide

/-- C7 (amended): one sweep pass sends a booting client whose `last_seen`
is older than 10 minutes offline and keeps one seen 9 minutes ago booting;
sends an online client whose `last_seen` is older than 5 minutes offline
and keeps one seen 4 minutes ago online; sends a client with no `last_seen`
at all offline regardless of `last_boot` (the sweep never consults
`last_boot`); and is idempotent, per row and over the whole table. -/
theorem sweep_transitions (now seen : Int) (c : Client) (cs : List Client) :
    (c.status = "booting" → c.last_seen = some seen →
      seen < now - sweepBootingTimeout → (sweepClient now c).status = "offline")
    ∧ (c.status = "booting" → c.last_seen = some (now - 540) →
        (sweepClient now c).status = "booting")
    ∧ (c.status = "online" → c.last_seen = some seen →
        seen < now - sweepOnlineTimeout → (sweepClient now c).status = "offline")
    ∧ (c.status = "online" → c.last_seen = some (now - 240) →
        (sweepClient now c).status = "online")
    ∧ (c.last_seen = none → (sweepClient now c).status = "offline")
    ∧ sweepClient now (sweepClient now c) = sweepClient now c
    ∧ update_client_statuses now (update_client_statuses now cs)
        = update_client_statuses now cs := by
  refine ⟨?_, ?_, ?_, ?_, ?_, sweepClient_idem now c, ?_⟩
  · intro hst hls hlt
    simp [sweepClient, hls, hst, hlt]
  · intro hst hls
    have hno : ¬ (now - 540 < now - sweepBootingTimeout) := by
      simp only [sweepBootingTimeout]; omega
    simp [sweepClient, hls, hst, hno]
  · intro hst hls hlt
    simp [sweepClient, hls, hst, hlt]
  · intro hst hls
    have hno : ¬ (now - 240 < now - sweepOnlineTimeout) := by
      simp only [sweepOnlineTimeout]; omega
    simp [sweepClient, hls, hst, hno]
  · intro hls
    by_cases hoff : c.status = "offline" <;> simp [sweepClient, hls, hoff]
  · simp only [update_client_statuses, List.map_map]
    apply List.map_congr_left
    intro x _
    by_cases hact : x.is_active
    · simp [hact, sweepClient_active, sweepClient_idem]
    · simp [hact]

/-- Witness for the amended C7 on a stale booting client. -/
theorem sweep_transitions_witness :
    staleBootingClient.status = "booting"
    ∧ staleBootingClient.last_seen = some (-700)
    ∧ ((-700 : Int) < 0 - sweepBootingTimeout)
    ∧ (sweepClient 0 staleBootingClient).status = "offline" :=
  ⟨rfl, rfl, by decide,
   (sweep_transitions 0 (-700) staleBootingClient []).1 rfl rfl (by decide)⟩

/-- While at most `rateLimitMax` requests from one IP fall inside one
60-second span, every one of them is admitted and the cache accumulates
exactly their timestamps (the prune step removes nothing because every
cached stamp is younger than the window). -/
theorem runRateLimiter_all_admitted (t0 : Int) (reqs : List Int) :
    ∀ (pre : List Int), (∀ x ∈ pre, t0 ≤ x) →
      (∀ x ∈ reqs, t0 ≤ x ∧ x < t0 + rateLimitWindow) →
      pre.length + reqs.length ≤ rateLimitMax →
      runRateLimiter pre reqs = (List.replicate reqs.length true, pre ++ reqs) := by
  induction reqs with
  | nil =>
    intro pre _ _ _
    simp [runRateLimiter]
  | cons now rest ih =>
    intro pre hpre hreqs hlen
    have hnow := hreqs now (by simp)
    have hfilter : pre.filter (fun ts => decide (now - rateLimitWindow < ts))
        = pre := by
      rw [List.filter_eq_self]
      intro x hx
      have h1 := hpre x hx
      have h2 := hnow.2
      simp only [rateLimitWindow] at *
      simp only [decide_eq_true_eq]
      omega
    have hnot2 : ¬ (rateLimitMax ≤ pre.length) := by
      simp only [List.length_cons, rateLimitMax] at hlen ⊢
      omega
    have hstep : rateLimitStep pre now = (true, pre ++ [now]) := by
      simp [rateLimitStep, hfilter, hnot2]
    have hrec := ih (pre ++ [now])
      (by
        intro x hx
        rcases List.mem_append.mp hx with h | h
        · exact hpre x h
        · simp only [List.mem_singleton] at h
          subst h
          exact hnow.1)
      (fun x hx => hreqs x (List.mem_cons_of_mem _ hx))
      (by
        simp only [List.length_append, List.length_singleton, List.length_nil,
          List.length_cons] at hlen ⊢
        omega)
    simp only [runRateLimiter, hstep, hrec]
    simp [List.replicate_succ]

/-- C8: from an empty window, 100 requests from one IP inside a 60-second
span are all admitted (in particular the 100th); a 101st request inside the
same span is rejected; a rejected request returns 429 and leaves the client
row untouched (the handler body never runs); and once every cached stamp of
an IP is a full window old, a new request from it is admitted again. -/
theorem boot_rate_limit_window (t0 tlast : Int) (reqs : List Int)
    (hlen : reqs.length = rateLimitMax)
    (hwin : ∀ x ∈ reqs, t0 ≤ x ∧ x < t0 + rateLimitWindow)
    (hlast : t0 ≤ tlast ∧ tlast < t0 + rateLimitWindow) :
    (runRateLimiter [] reqs).1 = List.replicate rateLimitMax true
    ∧ (rateLimitStep (runRateLimiter [] reqs).2 tlast).1 = false
    ∧ (∀ cache now, (∀ ts ∈ cache, ts + rateLimitWindow ≤ now) →
        (rateLimitStep cache now).1 = true)
    ∧ (∀ cache c ok now ip tok, (rateLimitStep cache now).1 = false →
        (bootConfigHandler cache c ok now ip tok).1 = 429
        ∧ (bootConfigHandler cache c ok now ip tok).2.1 = c) := by
  have hall := runRateLimiter_all_admitted t0 reqs [] (by simp) hwin
    (by simp [hlen])
  refine ⟨?_, ?_, ?_, ?_⟩
  · rw [hall]
    simp [hlen]
  · rw [hall]
    have hfilter2 : reqs.filter (fun ts => decide (tlast - rateLimitWindow < ts))
        = reqs := by
      rw [List.filter_eq_self]
      intro x hx
      have h1 := (hwin x hx).1
      have h2 := hlast.2
      simp only [rateLimitWindow] at *
      simp only [decide_eq_true_eq]
      omega
    simp [rateLimitStep, hfilter2, hlen]
  · intro cache now h
    have hempty : cache.filter (fun ts => decide (now - rateLimitWindow < ts))
        = [] := by
      rw [List.filter_eq_nil_iff]
      intro a ha
      have := h a ha
      simp only [decide_eq_true_eq, not_lt]
      omega
    simp [rateLimitStep, hempty, rateLimitMax]
  · intro cache c ok now ip tok hrej
    rcases hs : rateLimitStep cache now with ⟨admitted, cache'⟩
    rw [hs] at hrej
    simp only at hrej
    subst hrej
    constructor <;> simp [bootConfigHandler, hs]

/-- Witness for C8 with 100 requests at the same instant. -/
theorem boot_rate_limit_window_witness :
    (List.replicate 100 (0 : Int)).length = rateLimitMax
    ∧ (runRateLimiter [] (List.replicate 100 (0 : Int))).1
        = List.replicate rateLimitMax true
    ∧ (rateLimitStep (runRateLimiter [] (List.replicate 100 (0 : Int))).2 0).1
        = false :=
  ⟨by decide,
   (boot_rate_limit_window 0 0 (List.replicate 100 0) (by decide) (by decide)
      (by decide)).1,
   (boot_rate_limit_window 0 0 (List.replicate 100 0) (by decide) (by decide)
      (by decide)).2.1⟩

/-- A character of the `[0-9A-F]` class is not a separator, is unchanged by
uppercasing, and is not whitespace. -/
theorem upperHex_facts (c : Char) (h : isUpperHexDigit c = true) :
    isSepChar c = false ∧ c.toUpper = c ∧ c.isWhitespace = false := by
  unfold isUpperHexDigit at h
  have hmem : c ∈ hexDigitsUpper := of_decide_eq_true h
  simp only [hexDigitsUpper, List.mem_cons, List.not_mem_nil, or_false] at hmem
  rcases hmem with rfl|rfl|rfl|rfl|rfl|rfl|rfl|rfl|rfl|rfl|rfl|rfl|rfl|rfl|rfl|rfl
    <;> decide

/-- A character list of length 12 is an explicit 12-element list. -/
theorem list_eq_twelve (l : List Char) (h : l.length = 12) :
    ∃ c0 c1 c2 c3 c4 c5 c6 c7 c8 c9 c10 c11,
      l = [c0, c1, c2, c3, c4, c5, c6, c7, c8, c9, c10, c11] := by
  cases l with
  | nil => simp at h
  | cons c0 l =>
  cases l with
  | nil => simp at h
  | cons c1 l =>
  cases l with
  | nil => simp at h
  | cons c2 l =>
  cases l with
  | nil => simp at h
  | cons c3 l =>
  cases l with
  | nil => simp at h
  | cons c4 l =>
  cases l with
  | nil => simp at h
  | cons c5 l =>
  cases l with
  | nil => simp at h
  | cons c6 l =>
  cases l with
  | nil => simp at h
  | cons c7 l =>
  cases l with
  | nil => simp at h
  | cons c8 l =>
  cases l with
  | nil => simp at h
  | cons c9 l =>
  cases l with
  | nil => simp at h
  | cons c10 l =>
  cases l with
  | nil => simp at h
  | cons c11 l =>
  cases l with
  | cons c12 l =>
    simp only [List.length_cons] at h
    omega
  | nil => exact ⟨c0, c1, c2, c3, c4, c5, c6, c7, c8, c9, c10, c11, rfl⟩

/-- Stripping is the identity on a list holding no whitespace at all. -/
theorem stripChars_eq_self (l : List Char)
    (h : ∀ c ∈ l, c.isWhitespace = false) : stripChars l = l := by
  have h1 : l.dropWhile Char.isWhitespace = l := by
    cases l with
    | nil => rfl
    | cons a t =>
      rw [List.dropWhile_cons, h a (by simp)]
      simp
  have h2 : l.reverse.dropWhile Char.isWhitespace = l.reverse := by
    cases hr : l.reverse with
    | nil => rfl
    | cons a t =>
      have ha : a ∈ l := by
        have hmem : a ∈ l.reverse := by rw [hr]; simp
        simpa using hmem
      rw [List.dropWhile_cons, h a ha]
      simp
  rw [stripChars, h1, h2, List.reverse_reverse]

/-- Cleaning the canonical colon-grouped form of 12 hex-class characters
recovers exactly those characters. -/
theorem macClean_formatMac (c0 c1 c2 c3 c4 c5 c6 c7 c8 c9 c10 c11 : Char)
    (h : ∀ c ∈ [c0, c1, c2, c3, c4, c5, c6, c7, c8, c9, c10, c11],
      isUpperHexDigit c = true) :
    macClean (formatMac [c0, c1, c2, c3, c4, c5, c6, c7, c8, c9, c10, c11])
      = [c0, c1, c2, c3, c4, c5, c6, c7, c8, c9, c10, c11] := by
  have f0 := upperHex_facts c0 (h c0 (by simp))
  have f1 := upperHex_facts c1 (h c1 (by simp))
  have f2 := upperHex_facts c2 (h c2 (by simp))
  have f3 := upperHex_facts c3 (h c3 (by simp))
  have f4 := upperHex_facts c4 (h c4 (by simp))
  have f5 := upperHex_facts c5 (h c5 (by simp))
  have f6 := upperHex_facts c6 (h c6 (by simp))
  have f7 := upperHex_facts c7 (h c7 (by simp))
  have f8 := upperHex_facts c8 (h c8 (by simp))
  have f9 := upperHex_facts c9 (h c9 (by simp))
  have f10 := upperHex_facts c10 (h c10 (by simp))
  have f11 := upperHex_facts c11 (h c11 (by simp))
  have hstrip : stripChars [c0, c1, ':', c2, c3, ':', c4, c5, ':', c6, c7, ':',
      c8, c9, ':', c10, c11]
      = [c0, c1, ':', c2, c3, ':', c4, c5, ':', c6, c7, ':', c8, c9, ':',
        c10, c11] := by
    apply stripChars_eq_self
    intro x hx
    simp only [List.mem_cons, List.not_mem_nil, or_false] at hx
    rcases hx with rfl|rfl|rfl|rfl|rfl|rfl|rfl|rfl|rfl|rfl|rfl|rfl|rfl|rfl|rfl|rfl|rfl
      <;> first
        | decide
        | exact f0.2.2
        | exact f1.2.2
        | exact f2.2.2
        | exact f3.2.2
        | exact f4.2.2
        | exact f5.2.2
        | exact f6.2.2
        | exact f7.2.2
        | exact f8.2.2
        | exact f9.2.2
        | exact f10.2.2
        | exact f11.2.2
  have hcolon : isSepChar ':' = true := by decide
  show macClean [c0, c1, ':', c2, c3, ':', c4, c5, ':', c6, c7, ':', c8, c9,
    ':', c10, c11] = _
  unfold macClean
  rw [hstrip]
  simp [hcolon, f0.1, f1.1, f2.1, f3.1, f4.1, f5.1, f6.1, f7.1, f8.1, f9.1,
    f10.1, f11.1, f0.2.1, f1.2.1, f2.2.1, f3.2.1, f4.2.1, f5.2.1, f6.2.1,
    f7.2.1, f8.2.1, f9.2.1, f10.2.1, f11.2.1]

/-- Anatomy of a successful validation: the cleaned core is 12 hex digits,
is neither reserved address, and the output is its canonical grouping. -/
theorem validateMacL_some (s m : List Char) (h : validateMacL s = some m) :
    isHex12 (macClean s) = true
    ∧ macClean s ≠ nullMac ∧ macClean s ≠ broadcastMac
    ∧ m = formatMac (macClean s) := by
  unfold validateMacL at h
  by_cases h0 : s = []
  · rw [if_pos h0] at h
    exact absurd h (by simp)
  · rw [if_neg h0] at h
    by_cases h1 : isHex12 (macClean s) = true
    · rw [if_neg (not_not_intro h1)] at h
      by_cases h2 : macClean s = nullMac ∨ macClean s = broadcastMac
      · rw [if_pos h2] at h
        exact absurd h (by simp)
      · rw [if_neg h2] at h
        simp only [Option.some.injEq] at h
        push_neg at h2
        exact ⟨h1, h2.1, h2.2, h.symm⟩
    · rw [if_pos h1] at h
      exact absurd h (by simp)

/-- Validation depends only on the cleaned digit core. -/
theorem validateMacL_congr (s1 s2 : List Char) (h : macClean s1 = macClean s2) :
    validateMacL s1 = validateMacL s2 := by
  by_cases h1 : s1 = [] <;> by_cases h2 : s2 = []
  · rw [h1, h2]
  · subst h1
    have hcl : macClean s2 = [] := by rw [← h]; rfl
    unfold validateMacL
    rw [if_pos rfl, if_neg h2,
      if_pos (show ¬ (isHex12 (macClean s2) = true) by rw [hcl]; decide)]
  · subst h2
    have hcl : macClean s1 = [] := by rw [h]; rfl
    unfold validateMacL
    rw [if_pos rfl, if_neg h1,
      if_pos (show ¬ (isHex12 (macClean s1) = true) by rw [hcl]; decide)]
  · unfold validateMacL
    rw [if_neg h1, if_neg h2, h]

/-- Any input whose cleaned core is the all-zero or broadcast address is
rejected. -/
theorem validateMacL_reserved (s : List Char)
    (h : macClean s = nullMac ∨ macClean s = broadcastMac) :
    validateMacL s = none := by
  by_cases h0 : s = []
  · rw [h0]; rfl
  · unfold validateMacL
    by_cases h1 : isHex12 (macClean s) = true
    · rw [if_neg h0, if_neg (not_not_intro h1), if_pos h]
    · rw [if_neg h0, if_pos h1]

/-- Validation is idempotent on character lists: a canonical output is
accepted and returned unchanged. -/
theorem validateMacL_idem (s m : List Char) (h : validateMacL s = some m) :
    validateMacL m = some m := by
  obtain ⟨hhex, hnull, hbroad, hm⟩ := validateMacL_some s m h
  have hhex' := hhex
  simp only [isHex12, Bool.and_eq_true, decide_eq_true_eq,
    List.all_eq_true] at hhex'
  obtain ⟨hlen, hall⟩ := hhex'
  obtain ⟨c0, c1, c2, c3, c4, c5, c6, c7, c8, c9, c10, c11, hL⟩ :=
    list_eq_twelve _ hlen
  have hallL : ∀ c ∈ [c0, c1, c2, c3, c4, c5, c6, c7, c8, c9, c10, c11],
      isUpperHexDigit c = true := by
    rw [← hL]
    exact hall
  have hclean : macClean (formatMac (macClean s)) = macClean s := by
    rw [hL]
    exact macClean_formatMac c0 c1 c2 c3 c4 c5 c6 c7 c8 c9 c10 c11 hallL
  have hne : formatMac (macClean s) ≠ [] := by
    rw [hL]
    simp [formatMac]
  rw [hm]
  unfold validateMacL
  rw [if_neg hne, hclean, if_neg (not_not_intro hhex),
    if_neg (show ¬ (macClean s = nullMac ∨ macClean s = broadcastMac) by
      rintro (hc | hc)
      exacts [hnull hc, hbroad hc])]

/-- Validation is idempotent on strings. -/
theorem validate_mac_idem (s m : String) (h : validate_mac s = some m) :
    validate_mac m = some m := by
  unfold validate_mac at h ⊢
  rcases hv : validateMacL s.toList with _ | l
  · rw [hv] at h
    simp at h
  · rw [hv] at h
    obtain rfl : String.mk l = m := by simpa using h
    have htl : (String.mk l).toList = l := rfl
    rw [htl, validateMacL_idem s.toList l hv]
    rfl

/-- C9: MAC normalization yields one identical canonical form for every
representation of the same address (the result depends only on the cleaned
digit core, which strips any mix of colon/hyphen separators and case), a
successful result is exactly the canonical colon-grouped uppercase form of
that core, normalization is idempotent (on character lists and on strings),
and any spelling of the all-zero or broadcast address is rejected. -/
theorem mac_normalization_canonical :
    (∀ s1 s2 : List Char, macClean s1 = macClean s2 →
        validateMacL s1 = validateMacL s2)
    ∧ (∀ s m : List Char, validateMacL s = some m → m = formatMac (macClean s))
    ∧ (∀ s m : List Char, validateMacL s = some m → validateMacL m = some m)
    ∧ (∀ s m : String, validate_mac s = some m → validate_mac m = some m)
    ∧ (∀ s : List Char, macClean s = nullMac ∨ macClean s = broadcastMac →
        validateMacL s = none) :=
  ⟨validateMacL_congr, fun s m h => (validateMacL_some s m h).2.2.2,
   validateMacL_idem, validate_mac_idem, validateMacL_reserved⟩

/-- Witness for C9: two separator styles of one address validate alike, a
canonical string revalidates to itself, and an all-zero spelling is
rejected. -/
theorem mac_normalization_canonical_witness :
    validateMacL (String.toList "aa-bb-cc-dd-ee-0f")
        = validateMacL (String.toList "AA:BB:cc:dd:EE:0F")
    ∧ validate_mac "00:1A:2B:3C:4D:5E" = some "00:1A:2B:3C:4D:5E"
    ∧ validateMacL (String.toList "00-00-00-00-00-00") = none :=
  ⟨mac_normalization_canonical.1 _ _ (by decide),
   mac_normalization_canonical.2.2.2.1 "001a2b3c4d5e" "00:1A:2B:3C:4D:5E"
     (by decide),
   mac_normalization_canonical.2.2.2.2 _ (Or.inl (by decide))⟩
